import Mathlib

/-!
Verification development for the gridifier geometric pipeline.

The pipeline is embedded shallowly: a triangle mesh is a list of rational
vertex positions together with a flat index buffer; every geometric
operation of the source (translate, quarter-turn rotation about Z, mirror,
non-uniform scale, normalize-to-origin) is a pure function on that type.
External collaborators (the CSG boolean engine, vertex welding, buffer
concatenation, the JS Number coercion) are either taken as function
parameters or modelled at the interface the specification gives them.
Rotation angles in the source are exclusively multiples of 90 degrees, so
rotation is parameterized by a quarter-turn count, which is exact over the
rationals.
-/

namespace Gridifier

/- Rational arithmetic in the standard library is marked irreducible, which
blocks kernel evaluation of concrete instances; restore the ordinary
transparency locally so concrete witnesses can be checked by decide. -/
attribute [local semireducible] Rat.add Rat.sub Rat.mul Rat.inv

/-- Fixed overlap margin, 0.01 mm in the source. -/
def OVERLAP_THICKNESS : ℚ := 1 / 100

/-- Weld tolerance, 0.001 mm in the source (the welding collaborator is
modelled as exact-coincidence welding, its tolerance-zero interface). -/
def MERGE_VERTICES_TOLERANCE : ℚ := 1 / 1000

/-- Minimum triangle area, 0.001 in the source. -/
def MIN_TRIANGLE_AREA : ℚ := 1 / 1000

/-- A vertex position. -/
structure Vec3 where
  x : ℚ
  y : ℚ
  z : ℚ
deriving DecidableEq, Repr

/-- A triangle mesh: vertex positions plus a flat index buffer grouping
positions into triangles, three indices per triangle.  Normal and uv
attributes of the source are recomputed derived data and are not tracked. -/
structure Mesh where
  positions : List Vec3
  index : List ℕ
deriving DecidableEq, Repr

/-- Minimum of a rational list, 0 on the empty list. -/
def listMinD : List ℚ → ℚ
  | [] => 0
  | a :: l => l.foldl min a

/-- Maximum of a rational list, 0 on the empty list. -/
def listMaxD : List ℚ → ℚ
  | [] => 0
  | a :: l => l.foldl max a

def minX (m : Mesh) : ℚ := listMinD (m.positions.map (·.x))
def maxX (m : Mesh) : ℚ := listMaxD (m.positions.map (·.x))
def minY (m : Mesh) : ℚ := listMinD (m.positions.map (·.y))
def maxY (m : Mesh) : ℚ := listMaxD (m.positions.map (·.y))
def minZ (m : Mesh) : ℚ := listMinD (m.positions.map (·.z))
def maxZ (m : Mesh) : ℚ := listMaxD (m.positions.map (·.z))

/-- Bounding-box extent along X. -/
def xExtent (m : Mesh) : ℚ := maxX m - minX m

/-- Bounding-box extent along Y. -/
def yExtent (m : Mesh) : ℚ := maxY m - minY m

/-- Bounding-box extent along Z. -/
def zExtent (m : Mesh) : ℚ := maxZ m - minZ m

/-- BufferGeometry.translate: shift every vertex. -/
def meshTranslate (dx dy dz : ℚ) (m : Mesh) : Mesh :=
  { positions := m.positions.map (fun p => ⟨p.x + dx, p.y + dy, p.z + dz⟩),
    index := m.index }

/-- BufferGeometry.scale: non-uniform scale of every vertex. -/
def meshScale (sx sy sz : ℚ) (m : Mesh) : Mesh :=
  { positions := m.positions.map (fun p => ⟨sx * p.x, sy * p.y, sz * p.z⟩),
    index := m.index }

/-- Cosine and sine of k quarter turns. -/
def rotq (k : ℕ) : ℚ × ℚ :=
  match k % 4 with
  | 0 => (1, 0)
  | 1 => (0, 1)
  | 2 => (-1, 0)
  | _ => (0, -1)

/-- BufferGeometry.rotateZ restricted to the exact multiples of 90 degrees
the source uses: the angle (Math.PI / 2) * i is quarter count i, -Math.PI / 2
is quarter count 3 and Math.PI is quarter count 2. -/
def rotateZQuarter (k : ℕ) (m : Mesh) : Mesh :=
  let c := (rotq k).1
  let s := (rotq k).2
  { positions := m.positions.map (fun p => ⟨c * p.x - s * p.y, s * p.x + c * p.y, p.z⟩),
    index := m.index }

/-- trimBufferGeometryToOrigin: translate so the bounding-box minimum sits at
the origin (bounding box and sphere recomputation is implicit here, since
bounds are always computed fresh from the positions). -/
def trimToOrigin (m : Mesh) : Mesh :=
  meshTranslate (-(minX m)) (-(minY m)) (-(minZ m)) m

/-- rotateZWithTrim: rotate k quarter turns about Z, then normalize to origin. -/
def rotateZWithTrim (k : ℕ) (m : Mesh) : Mesh :=
  trimToOrigin (rotateZQuarter k m)

inductive Axis | x | y | z
deriving DecidableEq, Repr

/-- flipGeometryWithTrim: negate the chosen coordinate of every vertex,
reverse the flat index buffer to keep the winding outward, then normalize
to origin. -/
def flipWithTrim (ax : Axis) (m : Mesh) : Mesh :=
  let negated := m.positions.map (fun p =>
    match ax with
    | Axis.x => ⟨-p.x, p.y, p.z⟩
    | Axis.y => ⟨p.x, -p.y, p.z⟩
    | Axis.z => ⟨p.x, p.y, -p.z⟩)
  trimToOrigin { positions := negated, index := m.index.reverse }

/-- validateGeometry: with rational coordinates a NaN position or a
non-finite bounding sphere can only arise from an empty position buffer,
which is the one failure this embedding can reach. -/
def validateGeometry (context : String) (m : Mesh) : Except String Unit :=
  if m.positions.isEmpty then Except.error (context ++ (": Invalid bounding sphere"))
  else Except.ok ()

/-- An axis-aligned cutter box, handed to the external boolean engine. -/
structure Box where
  xMin : ℚ
  xMax : ℚ
  yMin : ℚ
  yMax : ℚ
  zMin : ℚ
  zMax : ℚ
deriving DecidableEq, Repr

/-- makeBoxMesh: the cutter box covering the given ranges, padded by the
fixed overlap margin on all sides (the source builds a BoxGeometry of the
padded size and centers it on the padded range). -/
def makeBoxMesh (xMin xMax yMin yMax zMin zMax : ℚ) : Box :=
  { xMin := xMin - OVERLAP_THICKNESS / 2, xMax := xMax + OVERLAP_THICKNESS / 2,
    yMin := yMin - OVERLAP_THICKNESS / 2, yMax := yMax + OVERLAP_THICKNESS / 2,
    zMin := zMin - OVERLAP_THICKNESS / 2, zMax := zMax + OVERLAP_THICKNESS / 2 }

/-- The extracted-cell result: geometry plus the grid cell footprint. -/
structure GridResult where
  geometry : Mesh
  sizeX : ℚ
  sizeY : ℚ
  sizeZ : ℚ
deriving DecidableEq, Repr

/-- cutToGrid: reject grids below 2x2, normalize the input to origin,
validate it, derive the cell footprint from the bounding box, and intersect
the solid with the corner cell box through the external boolean engine
(parameter csg, standing for cutByMeshBox). -/
def cutToGrid (csg : Mesh → Box → Mesh) (baseGeom : Mesh) (n m : ℚ) :
    Except String GridResult :=
  if n < 2 ∨ m < 2 then Except.error ("Grid size must be at least 2x2")
  else
    let g := trimToOrigin baseGeom
    match validateGeometry ("cutToGrid input") g with
    | Except.error e => Except.error e
    | Except.ok _ =>
      let sizeX := maxX g - minX g
      let sizeY := maxY g - minY g
      let sizeZ := maxZ g - minZ g
      let gridSizeX := sizeX / n
      let gridSizeY := sizeY / m
      let cornerPart := trimToOrigin (csg g (makeBoxMesh (minX g) (minX g + gridSizeX)
        (minY g) (minY g + gridSizeY) (minZ g) (minZ g + sizeZ)))
      Except.ok { geometry := cornerPart, sizeX := gridSizeX, sizeY := gridSizeY,
                  sizeZ := sizeZ }

/-- The driver steps of Gridifier from cell extraction up to the inputs of
decomposition: extract the cell, validate it, and when outputGridSize is
present uniformly rescale the cell and the corner radius. -/
def gridifierPrepare (csg : Mesh → Box → Mesh) (baseGeom : Mesh) (n m : ℚ)
    (inputCornerRadius : ℚ) (outputGridSize : Option ℚ) :
    Except String (GridResult × ℚ) :=
  match cutToGrid csg baseGeom n m with
  | Except.error e => Except.error e
  | Except.ok originalGridResult =>
    match validateGeometry ("cutToGrid output") originalGridResult.geometry with
    | Except.error e => Except.error e
    | Except.ok _ =>
      match outputGridSize with
      | none => Except.ok (originalGridResult, inputCornerRadius)
      | some s0 =>
        let sc := s0 / originalGridResult.sizeX
        let scaledGeometry := trimToOrigin (meshScale sc sc sc originalGridResult.geometry)
        match validateGeometry ("cutToGrid scaled output") scaledGeometry with
        | Except.error e => Except.error e
        | Except.ok _ =>
          Except.ok ({ geometry := scaledGeometry,
                       sizeX := originalGridResult.sizeX * sc,
                       sizeY := originalGridResult.sizeY * sc,
                       sizeZ := originalGridResult.sizeZ * sc },
                     inputCornerRadius * sc)

/-- The twelve named sub-regions produced by cutToParts. -/
structure Subparts where
  bottomCorner2W : Mesh
  topCorner2W : Mesh
  bottomCorner1WRightNear : Mesh
  bottomCorner1WLeftFar : Mesh
  topCorner1W : Mesh
  bottomCorner0W : Mesh
  sideTopEdges : Mesh
  sideBottomEdges : Mesh
  sideEdge2W : Mesh
  sideWall : Mesh
  bottomFloor : Mesh
  bottomEdge0W : Mesh
deriving DecidableEq, Repr

/-- Which subpart a placed piece was cloned from; each push site of
reassemble records the subpart it transforms. -/
inductive Tag
  | bc2W | tc2W | bc1WRN | bc1WLF | tc1W | bc0W
  | sTE | sBE | sE2W | sW | bF | bE0W
deriving DecidableEq, Repr

/-- Number of placed pieces carrying a given tag. -/
def countTag (t : Tag) (l : List (Tag × Mesh)) : ℕ :=
  l.countP (fun pc => decide (pc.1 = t))

/-- Translation offset of the four container corners, in the order the
switch statement of the source enumerates them: near-left, near-right,
far-right, far-left. -/
def cornerOffset (i : ℕ) (csX csY r : ℚ) : ℚ × ℚ :=
  match i with
  | 0 => (0, 0)
  | 1 => (csX - r, 0)
  | 2 => (csX - r, csY - r)
  | _ => (0, csY - r)

/-- The 4 outer-corner triplet placements of reassemble: for each corner i,
a rotated bottom corner, a rotated top corner, and the 2-wall vertical edge
scaled in Z to the container height minus two corner radii. -/
def cornerPieces (sp : Subparts) (gr : GridResult) (r h : ℚ) (rows cols : ℕ) :
    List (Tag × Mesh) :=
  let csX := gr.sizeX * cols
  let csY := gr.sizeY * rows
  let csZ := h
  (List.range 4).flatMap (fun i =>
    let bottomCorner2W := rotateZWithTrim i sp.bottomCorner2W
    let topCorner2W := rotateZWithTrim i sp.topCorner2W
    let topZposition := csZ - r
    let sideEdge2W := rotateZWithTrim i
      (meshScale 1 1 ((csZ - 2 * r) / maxZ sp.sideEdge2W) sp.sideEdge2W)
    let sideEdge2WZposition := maxZ bottomCorner2W
    let off := cornerOffset i csX csY r
    [(Tag.bc2W, meshTranslate off.1 off.2 0 bottomCorner2W),
     (Tag.tc2W, meshTranslate off.1 off.2 topZposition topCorner2W),
     (Tag.sE2W, meshTranslate off.1 off.2 sideEdge2WZposition sideEdge2W)])

/-- The near/far boundary fill of reassemble: per column a bottom edge and
its far twin, plus for interior seams (column index above 0) the four
1-wall corner pieces around the seam. -/
def xEdgePieces (sp : Subparts) (gr : GridResult) (r h : ℚ) (rows cols : ℕ) :
    List (Tag × Mesh) :=
  let csY := gr.sizeY * rows
  let csX := gr.sizeX * cols
  let xIterations := (round (csX / gr.sizeX)).toNat
  (List.range xIterations).flatMap (fun j =>
    let sideBottomEdge := sp.sideBottomEdges
    let sideBottomEdgeFar := rotateZWithTrim 2 sideBottomEdge
    [(Tag.sBE, meshTranslate (j * gr.sizeX + r) 0 0 sideBottomEdge),
     (Tag.sBE, meshTranslate (j * gr.sizeX + r) (csY - r) 0 sideBottomEdgeFar)]
    ++ (if 0 < j then
      let corner1WNearLeft := sp.bottomCorner1WRightNear
      let corner1WNearRight := flipWithTrim Axis.x corner1WNearLeft
      let corner1WFarLeft := rotateZWithTrim 2 corner1WNearRight
      let corner1WFarRight := rotateZWithTrim 2 corner1WNearLeft
      [(Tag.bc1WRN, meshTranslate (j * gr.sizeX - r) 0 0 corner1WNearLeft),
       (Tag.bc1WRN, meshTranslate (j * gr.sizeX) 0 0 corner1WNearRight),
       (Tag.bc1WRN, meshTranslate (j * gr.sizeX - r) (csY - r) 0 corner1WFarLeft),
       (Tag.bc1WRN, meshTranslate (j * gr.sizeX) (csY - r) 0 corner1WFarRight)]
    else []))

/-- The left/right boundary fill of reassemble, the near/far construction
with rows and columns swapped and an extra -90 degree base rotation. -/
def yEdgePieces (sp : Subparts) (gr : GridResult) (r h : ℚ) (rows cols : ℕ) :
    List (Tag × Mesh) :=
  let csY := gr.sizeY * rows
  let csX := gr.sizeX * cols
  let yIterations := (round (csY / gr.sizeY)).toNat
  (List.range yIterations).flatMap (fun j =>
    let sideBottomLeftEdge := rotateZWithTrim 3 sp.sideBottomEdges
    let sideBottomRightEdge := rotateZWithTrim 2 sideBottomLeftEdge
    [(Tag.sBE, meshTranslate 0 (j * gr.sizeY + r) 0 sideBottomLeftEdge),
     (Tag.sBE, meshTranslate (csX - r) (j * gr.sizeY + r) 0 sideBottomRightEdge)]
    ++ (if 0 < j then
      let cornerLeft1WNear := sp.bottomCorner1WLeftFar
      let cornerLeft1WFar := flipWithTrim Axis.y cornerLeft1WNear
      let cornerRight1WNear := trimToOrigin (rotateZQuarter 2 cornerLeft1WFar)
      let cornerRight1WFar := trimToOrigin (rotateZQuarter 2 cornerLeft1WNear)
      [(Tag.bc1WLF, meshTranslate 0 (j * gr.sizeY - r) 0 cornerLeft1WNear),
       (Tag.bc1WLF, meshTranslate 0 (j * gr.sizeY) 0 cornerLeft1WFar),
       (Tag.bc1WLF, meshTranslate (csX - r) (j * gr.sizeY - r) 0 cornerRight1WNear),
       (Tag.bc1WLF, meshTranslate (csX - r) (j * gr.sizeY) 0 cornerRight1WFar)]
    else []))

/-- The interior tiling of reassemble: one floor panel per cell, the 0-wall
seam edges above interior seams, and the four 0-wall corner pieces at
four-way interior junctions. -/
def interiorPieces (sp : Subparts) (gr : GridResult) (r h : ℚ) (rows cols : ℕ) :
    List (Tag × Mesh) :=
  let csY := gr.sizeY * rows
  let csX := gr.sizeX * cols
  let xIterations := (round (csX / gr.sizeX)).toNat
  let yIterations := (round (csY / gr.sizeY)).toNat
  (List.range xIterations).flatMap (fun x =>
    (List.range yIterations).flatMap (fun y =>
      [(Tag.bF, meshTranslate (x * gr.sizeX + r) (y * gr.sizeY + r) 0 sp.bottomFloor)]
      ++ (if 0 < y then
        let bottomEdge0WLeftNear := rotateZWithTrim 1 sp.bottomEdge0W
        let bottomEdge0WLeftFar := rotateZWithTrim 3 sp.bottomEdge0W
        [(Tag.bE0W, meshTranslate (x * gr.sizeX + r) (y * gr.sizeY - r) 0 bottomEdge0WLeftNear),
         (Tag.bE0W, meshTranslate (x * gr.sizeX + r) (y * gr.sizeY) 0 bottomEdge0WLeftFar)]
      else [])
      ++ (if 0 < x then
        let bottomEdge0WNearLeft := sp.bottomEdge0W
        let bottomEdge0WNearRight := rotateZWithTrim 2 bottomEdge0WNearLeft
        [(Tag.bE0W, meshTranslate (x * gr.sizeX - r) (y * gr.sizeY + r) 0 bottomEdge0WNearLeft),
         (Tag.bE0W, meshTranslate (x * gr.sizeX) (y * gr.sizeY + r) 0 bottomEdge0WNearRight)]
      else [])
      ++ (if 0 < x ∧ 0 < y then
        let bottomCorner0WLeftNear := sp.bottomCorner0W
        let bottomCorner0WLeftFar := rotateZWithTrim 3 bottomCorner0WLeftNear
        let bottomCorner0WRightFar := rotateZWithTrim 2 bottomCorner0WLeftNear
        let bottomCorner0WRightNear := rotateZWithTrim 1 bottomCorner0WLeftNear
        [(Tag.bc0W, meshTranslate (x * gr.sizeX - r) (y * gr.sizeY - r) 0 bottomCorner0WLeftNear),
         (Tag.bc0W, meshTranslate (x * gr.sizeX - r) (y * gr.sizeY) 0 bottomCorner0WLeftFar),
         (Tag.bc0W, meshTranslate (x * gr.sizeX) (y * gr.sizeY) 0 bottomCorner0WRightFar),
         (Tag.bc0W, meshTranslate (x * gr.sizeX) (y * gr.sizeY - r) 0 bottomCorner0WRightNear)]
      else [])))

/-- The near side wall: the sideWall subpart stretched in X to the container
span minus two corner radii and in Z to the container height minus two
corner radii, normalized, then moved to the near side. -/
def nearSideWall (sp : Subparts) (gr : GridResult) (r h : ℚ) (rows cols : ℕ) : Mesh :=
  let csX := gr.sizeX * cols
  let w := sp.sideWall
  let scaled := meshScale ((csX - 2 * r) / maxX w) 1 ((h - 2 * r) / maxZ w) w
  meshTranslate r 0 r (trimToOrigin scaled)

/-- The far side wall: the placed near wall cloned, rotated 180 degrees
about Z, and repositioned so its far edge touches containerSizeY minus r. -/
def farSideWall (sp : Subparts) (gr : GridResult) (r h : ℚ) (rows cols : ℕ) : Mesh :=
  let csY := gr.sizeY * rows
  let w0 := rotateZWithTrim 2 (nearSideWall sp gr r h rows cols)
  meshTranslate r (csY - maxY w0) r w0

/-- The near side top edge, scaled only in X and lifted to the top rim. -/
def nearSideTopEdge (sp : Subparts) (gr : GridResult) (r h : ℚ) (rows cols : ℕ) : Mesh :=
  let csX := gr.sizeX * cols
  let e := sp.sideTopEdges
  let scaled := meshScale ((csX - 2 * r) / maxX e) 1 1 e
  meshTranslate r 0 (h - r) (trimToOrigin scaled)

/-- The far side top edge: the near one rotated 180 degrees and repositioned. -/
def farSideTopEdge (sp : Subparts) (gr : GridResult) (r h : ℚ) (rows cols : ℕ) : Mesh :=
  let csY := gr.sizeY * rows
  let e0 := rotateZWithTrim 2 (nearSideTopEdge sp gr r h rows cols)
  meshTranslate r (csY - maxY e0) (h - r) e0

/-- The left side wall: the sideWall subpart rotated -90 degrees about Z,
stretched in Y to the container span minus two corner radii and in Z to the
container height minus two corner radii plus the overlap-thickness bump. -/
def leftSideWall (sp : Subparts) (gr : GridResult) (r h : ℚ) (rows cols : ℕ) : Mesh :=
  let csY := gr.sizeY * rows
  let w0 := rotateZWithTrim 3 sp.sideWall
  let scaled := meshScale 1 ((csY - 2 * r) / maxY w0)
    ((h - 2 * r + OVERLAP_THICKNESS) / maxZ w0) w0
  meshTranslate 0 r r (trimToOrigin scaled)

/-- The right side wall: the placed left wall cloned, rotated 180 degrees
about Z, and repositioned against the right boundary. -/
def rightSideWall (sp : Subparts) (gr : GridResult) (r h : ℚ) (rows cols : ℕ) : Mesh :=
  let csX := gr.sizeX * cols
  let w0 := rotateZWithTrim 2 (leftSideWall sp gr r h rows cols)
  meshTranslate (csX - maxX w0) r r w0

/-- The left side top edge, rotated -90 degrees and scaled only in Y. -/
def leftSideTopEdge (sp : Subparts) (gr : GridResult) (r h : ℚ) (rows cols : ℕ) : Mesh :=
  let csY := gr.sizeY * rows
  let e0 := rotateZWithTrim 3 sp.sideTopEdges
  let scaled := meshScale 1 ((csY - 2 * r) / maxY e0) 1 e0
  meshTranslate 0 r (h - r) (trimToOrigin scaled)

/-- The right side top edge: the left one rotated 180 degrees and repositioned. -/
def rightSideTopEdge (sp : Subparts) (gr : GridResult) (r h : ℚ) (rows cols : ℕ) : Mesh :=
  let csX := gr.sizeX * cols
  let e0 := rotateZWithTrim 2 (leftSideTopEdge sp gr r h rows cols)
  meshTranslate (csX - maxX e0) r (h - r) e0

/-- The eight side-wall placements of reassemble, in push order. -/
def sideWallPieces (sp : Subparts) (gr : GridResult) (r h : ℚ) (rows cols : ℕ) :
    List (Tag × Mesh) :=
  [(Tag.sW, nearSideWall sp gr r h rows cols),
   (Tag.sW, farSideWall sp gr r h rows cols),
   (Tag.sTE, nearSideTopEdge sp gr r h rows cols),
   (Tag.sTE, farSideTopEdge sp gr r h rows cols),
   (Tag.sW, leftSideWall sp gr r h rows cols),
   (Tag.sW, rightSideWall sp gr r h rows cols),
   (Tag.sTE, leftSideTopEdge sp gr r h rows cols),
   (Tag.sTE, rightSideTopEdge sp gr r h rows cols)]

/-- The full ordered list of placed pieces collected by reassemble, each
tagged with the subpart it is a transformed clone of. -/
def reassemblePieces (sp : Subparts) (gr : GridResult) (r h : ℚ) (rows cols : ℕ) :
    List (Tag × Mesh) :=
  cornerPieces sp gr r h rows cols
  ++ xEdgePieces sp gr r h rows cols
  ++ yEdgePieces sp gr r h rows cols
  ++ interiorPieces sp gr r h rows cols
  ++ sideWallPieces sp gr r h rows cols

/-- Group a flat index buffer into triangles, three indices per triangle;
a trailing incomplete group is dropped, as in the source loops that stop
at indices.length - 2. -/
def triples : List ℕ → List (ℕ × ℕ × ℕ)
  | a :: b :: c :: rest => (a, b, c) :: triples rest
  | _ => []

/-- Flatten a triangle list back into a flat index buffer. -/
def flattenTris : List (ℕ × ℕ × ℕ) → List ℕ
  | [] => []
  | (a, b, c) :: rest => a :: b :: c :: flattenTris rest

/-- Remove duplicates from a list keeping the first occurrence of each
element, the iteration order of a JS Set. -/
def firstDedup {α : Type} [DecidableEq α] : List α → List α
  | [] => []
  | a :: l => a :: (firstDedup l).filter (· ≠ a)

/-- BufferGeometryUtils.mergeVertices, the external welding collaborator,
modelled at its interface: coincident vertices are identified (first
occurrence kept) and the index buffer is remapped accordingly. -/
def mergeVerticesModel (m : Mesh) : Mesh :=
  let ps := firstDedup m.positions
  { positions := ps,
    index := m.index.map (fun i => ps.indexOf (m.positions.getD i ⟨0, 0, 0⟩)) }

/-- The duplicate key of a face: its index triple in ascending order.  The
source sorts the triple (as strings) and joins it; two triples get the same
key exactly when they are the same multiset of indices, which the sorted
triple captures. -/
def sortKey (t : ℕ × ℕ × ℕ) : List ℕ :=
  [t.1, t.2.1, t.2.2].insertionSort (· ≤ ·)

/-- The list of duplicate keys of all faces of a mesh. -/
def faceKeys (m : Mesh) : List (List ℕ) :=
  (triples m.index).map sortKey

/-- Keep the first face of each duplicate class, in order. -/
def dedupFacesGo (seen : List (List ℕ)) : List (ℕ × ℕ × ℕ) → List (ℕ × ℕ × ℕ)
  | [] => []
  | t :: ts =>
    let key := sortKey t
    if key ∈ seen then dedupFacesGo seen ts
    else t :: dedupFacesGo (key :: seen) ts

/-- removeDuplicateFaces: drop every face whose unordered index triple was
already emitted; positions are kept, only the index buffer changes. -/
def removeDuplicateFaces (m : Mesh) : Mesh :=
  { positions := m.positions,
    index := flattenTris (dedupFacesGo [] (triples m.index)) }

/-- Squared magnitude of the cross product of the two edge vectors of a
triangle; the source compares 0.5 * sqrt of this against the minimum area,
which is equivalent to comparing this value against 4 * minArea^2. -/
def crossSq (a b c : Vec3) : ℚ :=
  let abx := b.x - a.x
  let aby := b.y - a.y
  let abz := b.z - a.z
  let acx := c.x - a.x
  let acy := c.y - a.y
  let acz := c.z - a.z
  let cx := aby * acz - abz * acy
  let cy := abz * acx - abx * acz
  let cz := abx * acy - aby * acx
  cx * cx + cy * cy + cz * cz

/-- A triangle passes the degeneracy cull when its area strictly exceeds
the fixed minimum: area > minArea iff crossSq > 4 * minArea^2. -/
def areaOK (ps : List Vec3) (t : ℕ × ℕ × ℕ) : Bool :=
  decide (4 * MIN_TRIANGLE_AREA ^ 2 <
    crossSq (ps.getD t.1 ⟨0, 0, 0⟩) (ps.getD t.2.1 ⟨0, 0, 0⟩) (ps.getD t.2.2 ⟨0, 0, 0⟩))

/-- removeDegenerateTriangles: keep only faces above the minimum area, then
rebuild a compacted position buffer containing only vertices still
referenced (in first-use order, matching JS Set insertion order) and remap
the index buffer to it. -/
def removeDegenerateTriangles (m : Mesh) : Mesh :=
  let kept := (triples m.index).filter (areaOK m.positions)
  let newIndices := flattenTris kept
  let usedVertices := firstDedup newIndices
  let newPositions := usedVertices.map (fun i => m.positions.getD i ⟨0, 0, 0⟩)
  { positions := newPositions, index := newIndices.map (fun i => usedVertices.indexOf i) }

/-- One iteration of the repair loop body: weld, drop duplicate faces, cull
degenerate triangles, weld again (normal recomputation leaves positions and
indices unchanged and is not tracked). -/
def fixPass (m : Mesh) : Mesh :=
  mergeVerticesModel (removeDegenerateTriangles (removeDuplicateFaces (mergeVerticesModel m)))

/-- The do/while loop of fixNonManifoldGeometry: repeat fixPass until the
vertex-buffer length stops changing between iterations.  The source
compares flat array lengths, equal exactly when the vertex counts are;
fuel bounds the recursion and is chosen larger than any possible chain of
strictly shrinking vertex buffers. -/
def fixLoop : ℕ → Mesh → Mesh
  | 0, m => m
  | fuel + 1, m =>
    let output := fixPass m
    if output.positions.length = m.positions.length then output
    else fixLoop fuel output

/-- fixNonManifoldGeometry: runs the repair loop, then returns the original
geometry binding - the source ends with the statement return geometry, not
return output, so the repaired mesh computed by the loop is discarded. -/
def fixNonManifoldGeometry (geometry : Mesh) : Mesh :=
  let _output := fixLoop (geometry.positions.length + 1) geometry
  geometry

/-- Number of whole triangles in the index buffer. -/
def triCount (m : Mesh) : ℕ := (triples m.index).length

/-- BufferGeometryUtils.mergeGeometries, the external concatenation
collaborator, modelled at its interface: buffers are concatenated with
index offsets. -/
def mergeGeometries (gs : List Mesh) : Mesh :=
  gs.foldl (fun acc g =>
    { positions := acc.positions ++ g.positions,
      index := acc.index ++ g.index.map (· + acc.positions.length) }) ⟨[], []⟩

/-- unionAllGeometry: fold the list pairwise through the external boolean
union (parameter union2); fails on an empty list. -/
def unionAllGeometry (union2 : Mesh → Mesh → Mesh) (gs : List Mesh) :
    Except String Mesh :=
  match gs with
  | [] => Except.error ("No geometry to union")
  | g :: rest => Except.ok (rest.foldl union2 g)

/-- The validation loop at the entry of reassemble, over the twelve
subparts in interface order. -/
def validateSubparts (sp : Subparts) : Except String Unit := do
  let _ ← validateGeometry ("reassemble input bottomCorner2W") sp.bottomCorner2W
  let _ ← validateGeometry ("reassemble input topCorner2W") sp.topCorner2W
  let _ ← validateGeometry ("reassemble input bottomCorner1WRightNear") sp.bottomCorner1WRightNear
  let _ ← validateGeometry ("reassemble input bottomCorner1WLeftFar") sp.bottomCorner1WLeftFar
  let _ ← validateGeometry ("reassemble input topCorner1W") sp.topCorner1W
  let _ ← validateGeometry ("reassemble input bottomCorner0W") sp.bottomCorner0W
  let _ ← validateGeometry ("reassemble input sideTopEdges") sp.sideTopEdges
  let _ ← validateGeometry ("reassemble input sideBottomEdges") sp.sideBottomEdges
  let _ ← validateGeometry ("reassemble input sideEdge2W") sp.sideEdge2W
  let _ ← validateGeometry ("reassemble input sideWall") sp.sideWall
  let _ ← validateGeometry ("reassemble input bottomFloor") sp.bottomFloor
  let _ ← validateGeometry ("reassemble input bottomEdge0W") sp.bottomEdge0W
  pure ()

/-- reassemble: validate the subparts, collect the placed pieces, fail if
none were collected, merge (boolean union fold when unionAll is set,
buffer concatenation otherwise), repair, and validate the output.
dividerThickness is accepted but, as in the source, never read. -/
def reassemble (union2 : Mesh → Mesh → Mesh) (sp : Subparts) (gr : GridResult)
    (r h : ℚ) (rows cols : ℕ) (dividerThickness : Option ℚ) (unionAll : Bool) :
    Except String Mesh := do
  let _ ← validateSubparts sp
  let geometries := (reassemblePieces sp gr r h rows cols).map (·.2)
  if geometries.length = 0 then Except.error ("No geometries to merge")
  else do
    let merged ← if unionAll then unionAllGeometry union2 geometries
                 else Except.ok (mergeGeometries geometries)
    let fixed := fixNonManifoldGeometry merged
    let _ ← validateGeometry ("reassemble output") fixed
    Except.ok fixed

/-- A JS value as it flows through parseGridSize: a finite number, NaN, or
undefined (from destructuring a too-short array). -/
inductive JSVal
  | undef
  | nan
  | num (q : ℚ)
deriving DecidableEq, Repr

/-- The JS comparison v < bound: false whenever v is NaN or undefined. -/
def jsLt (v : JSVal) (bound : ℚ) : Bool :=
  match v with
  | JSVal.num q => decide (q < bound)
  | _ => false

/-- The JS String.split on a one-character separator, over the character
list of the string. -/
def splitOnChar (c : Char) : List Char → List (List Char)
  | [] => [[]]
  | a :: rest =>
    match splitOnChar c rest with
    | [] => [[]]
    | grp :: gs => if a = c then [] :: grp :: gs else (a :: grp) :: gs

/-- The JS Number coercion, an external collaborator modelled on the inputs
the grid-size strings exercise: the empty string converts to 0, an unsigned
decimal digit string to its value, and any string containing other
characters to NaN. -/
def jsNumber (l : List Char) : JSVal :=
  if l = [] then JSVal.num 0
  else if l.all Char.isDigit then
    JSVal.num ((l.foldl (fun a c => 10 * a + (c.toNat - 48)) 0 : ℕ) : ℚ)
  else JSVal.nan

/-- parseGridSize: split on the letter x, coerce both parts with Number,
and throw only when n < 1 or m < 1 evaluates to true under JS comparison
semantics. -/
def parseGridSize (input : String) : Except String (JSVal × JSVal) :=
  let parts := (splitOnChar ('x') input.data).map jsNumber
  let n := parts.getD 0 JSVal.undef
  let m := parts.getD 1 JSVal.undef
  if jsLt n 1 || jsLt m 1 then
    Except.error ("Invalid grid size. Expected format: NxM, where N and M are positive integers.")
  else Except.ok (n, m)

/-! Bounding-box arithmetic lemmas. -/

lemma foldl_min_map_add (c : ℚ) : ∀ (l : List ℚ) (a : ℚ),
    (l.map (fun v => v + c)).foldl min (a + c) = l.foldl min a + c := by
  intro l
  induction l with
  | nil => intro a; simp
  | cons b t ih =>
    intro a
    simp only [List.map_cons, List.foldl_cons]
    rw [min_add_add_right]
    exact ih (min a b)

lemma foldl_max_map_add (c : ℚ) : ∀ (l : List ℚ) (a : ℚ),
    (l.map (fun v => v + c)).foldl max (a + c) = l.foldl max a + c := by
  intro l
  induction l with
  | nil => intro a; simp
  | cons b t ih =>
    intro a
    simp only [List.map_cons, List.foldl_cons]
    rw [max_add_add_right]
    exact ih (max a b)

lemma foldl_min_map_mul (c : ℚ) (hc : 0 ≤ c) : ∀ (l : List ℚ) (a : ℚ),
    (l.map (fun v => c * v)).foldl min (c * a) = c * l.foldl min a := by
  intro l
  induction l with
  | nil => intro a; simp
  | cons b t ih =>
    intro a
    simp only [List.map_cons, List.foldl_cons]
    rw [← mul_min_of_nonneg _ _ hc]
    exact ih (min a b)

lemma foldl_max_map_mul (c : ℚ) (hc : 0 ≤ c) : ∀ (l : List ℚ) (a : ℚ),
    (l.map (fun v => c * v)).foldl max (c * a) = c * l.foldl max a := by
  intro l
  induction l with
  | nil => intro a; simp
  | cons b t ih =>
    intro a
    simp only [List.map_cons, List.foldl_cons]
    rw [← mul_max_of_nonneg _ _ hc]
    exact ih (max a b)

lemma listMinD_map_add (c : ℚ) (l : List ℚ) (h : l ≠ []) :
    listMinD (l.map (fun v => v + c)) = listMinD l + c := by
  cases l with
  | nil => exact absurd rfl h
  | cons a t =>
    simp only [List.map_cons, listMinD]
    exact foldl_min_map_add c t a

lemma listMaxD_map_add (c : ℚ) (l : List ℚ) (h : l ≠ []) :
    listMaxD (l.map (fun v => v + c)) = listMaxD l + c := by
  cases l with
  | nil => exact absurd rfl h
  | cons a t =>
    simp only [List.map_cons, listMaxD]
    exact foldl_max_map_add c t a

lemma listMinD_map_mul (c : ℚ) (hc : 0 ≤ c) (l : List ℚ) :
    listMinD (l.map (fun v => c * v)) = c * listMinD l := by
  cases l with
  | nil => simp [listMinD]
  | cons a t =>
    simp only [List.map_cons, listMinD]
    exact foldl_min_map_mul c hc t a

lemma listMaxD_map_mul (c : ℚ) (hc : 0 ≤ c) (l : List ℚ) :
    listMaxD (l.map (fun v => c * v)) = c * listMaxD l := by
  cases l with
  | nil => simp [listMaxD]
  | cons a t =>
    simp only [List.map_cons, listMaxD]
    exact foldl_max_map_mul c hc t a

lemma coordsX_translate (dx dy dz : ℚ) (m : Mesh) :
    (meshTranslate dx dy dz m).positions.map (·.x)
      = (m.positions.map (·.x)).map (fun v => v + dx) := by
  simp only [meshTranslate, List.map_map]; rfl

lemma coordsY_translate (dx dy dz : ℚ) (m : Mesh) :
    (meshTranslate dx dy dz m).positions.map (·.y)
      = (m.positions.map (·.y)).map (fun v => v + dy) := by
  simp only [meshTranslate, List.map_map]; rfl

lemma coordsZ_translate (dx dy dz : ℚ) (m : Mesh) :
    (meshTranslate dx dy dz m).positions.map (·.z)
      = (m.positions.map (·.z)).map (fun v => v + dz) := by
  simp only [meshTranslate, List.map_map]; rfl

lemma coordsX_scale (sx sy sz : ℚ) (m : Mesh) :
    (meshScale sx sy sz m).positions.map (·.x)
      = (m.positions.map (·.x)).map (fun v => sx * v) := by
  simp only [meshScale, List.map_map]; rfl

lemma coordsY_scale (sx sy sz : ℚ) (m : Mesh) :
    (meshScale sx sy sz m).positions.map (·.y)
      = (m.positions.map (·.y)).map (fun v => sy * v) := by
  simp only [meshScale, List.map_map]; rfl

lemma coordsZ_scale (sx sy sz : ℚ) (m : Mesh) :
    (meshScale sx sy sz m).positions.map (·.z)
      = (m.positions.map (·.z)).map (fun v => sz * v) := by
  simp only [meshScale, List.map_map]; rfl

lemma coordsZ_rotate (k : ℕ) (m : Mesh) :
    (rotateZQuarter k m).positions.map (·.z) = m.positions.map (·.z) := by
  simp only [rotateZQuarter, List.map_map]; rfl

lemma map_pos_ne {l : List Vec3} (h : l ≠ []) (f : Vec3 → ℚ) : l.map f ≠ [] := by
  simpa using h

lemma translate_pos_ne (dx dy dz : ℚ) {m : Mesh} (h : m.positions ≠ []) :
    (meshTranslate dx dy dz m).positions ≠ [] := by
  simpa [meshTranslate] using h

lemma scale_pos_ne (sx sy sz : ℚ) {m : Mesh} (h : m.positions ≠ []) :
    (meshScale sx sy sz m).positions ≠ [] := by
  simpa [meshScale] using h

lemma rotate_pos_ne (k : ℕ) {m : Mesh} (h : m.positions ≠ []) :
    (rotateZQuarter k m).positions ≠ [] := by
  simpa [rotateZQuarter] using h

lemma trim_pos_ne {m : Mesh} (h : m.positions ≠ []) :
    (trimToOrigin m).positions ≠ [] :=
  translate_pos_ne _ _ _ h

lemma rotateZWithTrim_pos_ne (k : ℕ) {m : Mesh} (h : m.positions ≠ []) :
    (rotateZWithTrim k m).positions ≠ [] :=
  trim_pos_ne (rotate_pos_ne k h)

lemma minX_translate (dx dy dz : ℚ) {m : Mesh} (h : m.positions ≠ []) :
    minX (meshTranslate dx dy dz m) = minX m + dx := by
  unfold minX
  rw [coordsX_translate, listMinD_map_add _ _ (map_pos_ne h _)]

lemma maxX_translate (dx dy dz : ℚ) {m : Mesh} (h : m.positions ≠ []) :
    maxX (meshTranslate dx dy dz m) = maxX m + dx := by
  unfold maxX
  rw [coordsX_translate, listMaxD_map_add _ _ (map_pos_ne h _)]

lemma minY_translate (dx dy dz : ℚ) {m : Mesh} (h : m.positions ≠ []) :
    minY (meshTranslate dx dy dz m) = minY m + dy := by
  unfold minY
  rw [coordsY_translate, listMinD_map_add _ _ (map_pos_ne h _)]

lemma maxY_translate (dx dy dz : ℚ) {m : Mesh} (h : m.positions ≠ []) :
    maxY (meshTranslate dx dy dz m) = maxY m + dy := by
  unfold maxY
  rw [coordsY_translate, listMaxD_map_add _ _ (map_pos_ne h _)]

lemma minZ_translate (dx dy dz : ℚ) {m : Mesh} (h : m.positions ≠ []) :
    minZ (meshTranslate dx dy dz m) = minZ m + dz := by
  unfold minZ
  rw [coordsZ_translate, listMinD_map_add _ _ (map_pos_ne h _)]

lemma maxZ_translate (dx dy dz : ℚ) {m : Mesh} (h : m.positions ≠ []) :
    maxZ (meshTranslate dx dy dz m) = maxZ m + dz := by
  unfold maxZ
  rw [coordsZ_translate, listMaxD_map_add _ _ (map_pos_ne h _)]

lemma minX_scale (sx sy sz : ℚ) (hs : 0 ≤ sx) (m : Mesh) :
    minX (meshScale sx sy sz m) = sx * minX m := by
  unfold minX
  rw [coordsX_scale, listMinD_map_mul _ hs]

lemma maxX_scale (sx sy sz : ℚ) (hs : 0 ≤ sx) (m : Mesh) :
    maxX (meshScale sx sy sz m) = sx * maxX m := by
  unfold maxX
  rw [coordsX_scale, listMaxD_map_mul _ hs]

lemma minY_scale (sx sy sz : ℚ) (hs : 0 ≤ sy) (m : Mesh) :
    minY (meshScale sx sy sz m) = sy * minY m := by
  unfold minY
  rw [coordsY_scale, listMinD_map_mul _ hs]

lemma maxY_scale (sx sy sz : ℚ) (hs : 0 ≤ sy) (m : Mesh) :
    maxY (meshScale sx sy sz m) = sy * maxY m := by
  unfold maxY
  rw [coordsY_scale, listMaxD_map_mul _ hs]

lemma minZ_scale (sx sy sz : ℚ) (hs : 0 ≤ sz) (m : Mesh) :
    minZ (meshScale sx sy sz m) = sz * minZ m := by
  unfold minZ
  rw [coordsZ_scale, listMinD_map_mul _ hs]

lemma maxZ_scale (sx sy sz : ℚ) (hs : 0 ≤ sz) (m : Mesh) :
    maxZ (meshScale sx sy sz m) = sz * maxZ m := by
  unfold maxZ
  rw [coordsZ_scale, listMaxD_map_mul _ hs]

lemma minZ_rotate (k : ℕ) (m : Mesh) : minZ (rotateZQuarter k m) = minZ m := by
  unfold minZ; rw [coordsZ_rotate]

lemma maxZ_rotate (k : ℕ) (m : Mesh) : maxZ (rotateZQuarter k m) = maxZ m := by
  unfold maxZ; rw [coordsZ_rotate]

lemma minX_trim {m : Mesh} (h : m.positions ≠ []) : minX (trimToOrigin m) = 0 := by
  unfold trimToOrigin; rw [minX_translate _ _ _ h]; ring

lemma maxX_trim {m : Mesh} (h : m.positions ≠ []) :
    maxX (trimToOrigin m) = xExtent m := by
  unfold trimToOrigin xExtent; rw [maxX_translate _ _ _ h]; ring

lemma minY_trim {m : Mesh} (h : m.positions ≠ []) : minY (trimToOrigin m) = 0 := by
  unfold trimToOrigin; rw [minY_translate _ _ _ h]; ring

lemma maxY_trim {m : Mesh} (h : m.positions ≠ []) :
    maxY (trimToOrigin m) = yExtent m := by
  unfold trimToOrigin yExtent; rw [maxY_translate _ _ _ h]; ring

lemma minZ_trim {m : Mesh} (h : m.positions ≠ []) : minZ (trimToOrigin m) = 0 := by
  unfold trimToOrigin; rw [minZ_translate _ _ _ h]; ring

lemma maxZ_trim {m : Mesh} (h : m.positions ≠ []) :
    maxZ (trimToOrigin m) = zExtent m := by
  unfold trimToOrigin zExtent; rw [maxZ_translate _ _ _ h]; ring

lemma xExtent_translate (dx dy dz : ℚ) {m : Mesh} (h : m.positions ≠ []) :
    xExtent (meshTranslate dx dy dz m) = xExtent m := by
  unfold xExtent; rw [maxX_translate _ _ _ h, minX_translate _ _ _ h]; ring

lemma yExtent_translate (dx dy dz : ℚ) {m : Mesh} (h : m.positions ≠ []) :
    yExtent (meshTranslate dx dy dz m) = yExtent m := by
  unfold yExtent; rw [maxY_translate _ _ _ h, minY_translate _ _ _ h]; ring

lemma zExtent_translate (dx dy dz : ℚ) {m : Mesh} (h : m.positions ≠ []) :
    zExtent (meshTranslate dx dy dz m) = zExtent m := by
  unfold zExtent; rw [maxZ_translate _ _ _ h, minZ_translate _ _ _ h]; ring

lemma xExtent_trim {m : Mesh} (h : m.positions ≠ []) :
    xExtent (trimToOrigin m) = xExtent m :=
  xExtent_translate _ _ _ h

lemma yExtent_trim {m : Mesh} (h : m.positions ≠ []) :
    yExtent (trimToOrigin m) = yExtent m :=
  yExtent_translate _ _ _ h

lemma zExtent_trim {m : Mesh} (h : m.positions ≠ []) :
    zExtent (trimToOrigin m) = zExtent m :=
  zExtent_translate _ _ _ h

lemma zExtent_rotate (k : ℕ) (m : Mesh) :
    zExtent (rotateZQuarter k m) = zExtent m := by
  unfold zExtent; rw [maxZ_rotate, minZ_rotate]

lemma xExtent_scale (sx sy sz : ℚ) (hs : 0 ≤ sx) (m : Mesh) :
    xExtent (meshScale sx sy sz m) = sx * xExtent m := by
  unfold xExtent; rw [maxX_scale _ _ _ hs, minX_scale _ _ _ hs]; ring

lemma yExtent_scale (sx sy sz : ℚ) (hs : 0 ≤ sy) (m : Mesh) :
    yExtent (meshScale sx sy sz m) = sy * yExtent m := by
  unfold yExtent; rw [maxY_scale _ _ _ hs, minY_scale _ _ _ hs]; ring

lemma zExtent_scale (sx sy sz : ℚ) (hs : 0 ≤ sz) (m : Mesh) :
    zExtent (meshScale sx sy sz m) = sz * zExtent m := by
  unfold zExtent; rw [maxZ_scale _ _ _ hs, minZ_scale _ _ _ hs]; ring

lemma zExtent_rotateZWithTrim (k : ℕ) {m : Mesh} (h : m.positions ≠ []) :
    zExtent (rotateZWithTrim k m) = zExtent m := by
  unfold rotateZWithTrim
  rw [zExtent_trim (rotate_pos_ne k h), zExtent_rotate]

lemma maxZ_rotateZWithTrim (k : ℕ) {m : Mesh} (h : m.positions ≠ []) :
    maxZ (rotateZWithTrim k m) = zExtent m := by
  unfold rotateZWithTrim
  rw [maxZ_trim (rotate_pos_ne k h), zExtent_rotate]

lemma pos_ne_of_zExtent {m : Mesh} (h : 0 < zExtent m) : m.positions ≠ [] := by
  intro he
  rw [zExtent, maxZ, minZ, he] at h
  simp [listMinD, listMaxD] at h

lemma pos_ne_of_xExtent {m : Mesh} (h : 0 < xExtent m) : m.positions ≠ [] := by
  intro he
  rw [xExtent, maxX, minX, he] at h
  simp [listMinD, listMaxD] at h

/-! Counting lemmas for the placement loops. -/

lemma countTag_append (t : Tag) (l₁ l₂ : List (Tag × Mesh)) :
    countTag t (l₁ ++ l₂) = countTag t l₁ + countTag t l₂ :=
  List.countP_append _ l₁ l₂

lemma countP_flatMap {α β : Type} (p : β → Bool) (l : List α) (f : α → List β) :
    ((l.flatMap f).countP p) = (l.map (fun a => (f a).countP p)).sum := by
  induction l with
  | nil => simp
  | cons a l ih => simp [List.flatMap_cons, List.countP_append, ih]

/-- Count of a predicate over a loop body that contributes a fixed count on
iteration 0 and a fixed larger count on every later iteration. -/
lemma count_range_flatMap {β : Type} (p : β → Bool) (f : ℕ → List β) (a b : ℕ)
    (h0 : (f 0).countP p = a) (hpos : ∀ j, 0 < j → (f j).countP p = a + b) :
    ∀ n, (((List.range n).flatMap f).countP p) = n * a + (n - 1) * b := by
  intro n
  induction n with
  | zero => simp
  | succ k ih =>
    rw [List.range_succ, List.flatMap_append, List.countP_append, ih]
    cases k with
    | zero => simpa using h0
    | succ k2 =>
      rw [show List.flatMap [k2 + 1] f = f (k2 + 1) ++ [] from rfl, List.countP_append,
        hpos (k2 + 1) (Nat.succ_pos k2)]
      simp only [List.countP_nil, Nat.add_sub_cancel, Nat.succ_sub_one]
      ring

/-- The loop bound round(containerSize / cellSize) recovers the requested
grid count whenever the cell size is positive. -/
lemma iterations_eq {s : ℚ} (hs : 0 < s) (k : ℕ) :
    (round ((s * k) / s)).toNat = k := by
  rw [mul_div_cancel_left₀ (k : ℚ) hs.ne', round_natCast, Int.toNat_natCast]

/-! Lemmas about the repair machinery. -/

lemma triples_flattenTris : ∀ l : List (ℕ × ℕ × ℕ), triples (flattenTris l) = l := by
  intro l
  induction l with
  | nil => rfl
  | cons t rest ih => rw [show flattenTris (t :: rest) = t.1 :: t.2.1 :: t.2.2 :: flattenTris rest from rfl,
      show triples (t.1 :: t.2.1 :: t.2.2 :: flattenTris rest) = (t.1, t.2.1, t.2.2) :: triples (flattenTris rest) from rfl, ih]

/-! String lemmas used to separate the distinct error branches. -/

lemma append_sphere_ne_merge (ctx : String) :
    ctx ++ (": Invalid bounding sphere") ≠ ("No geometries to merge") := by
  intro hcontra
  have hlen := congrArg String.length hcontra
  rw [String.length_append] at hlen
  have h1 : (": Invalid bounding sphere").length = 25 := rfl
  have h2 : ("No geometries to merge").length = 22 := rfl
  rw [h1, h2] at hlen
  omega

/-- Stepping through one validation in an Except chain: either the error is
the validation message, or the continuation produced the result. -/
lemma validate_bind_error_form {α : Type} (ctx : String) (m : Mesh)
    (k : Except String α) (e : String)
    (hcontra : (validateGeometry ctx m >>= fun _ => k) = Except.error e) :
    e = ctx ++ (": Invalid bounding sphere") ∨ k = Except.error e := by
  unfold validateGeometry at hcontra
  by_cases hm : m.positions.isEmpty
  · simp only [hm, if_true, Except.bind] at hcontra
    left
    cases hcontra
    rfl
  · simp only [hm, if_false, Except.bind] at hcontra
    right
    exact hcontra

/-- Every failure of the subpart validation loop carries the bounding-sphere
message of the failing subpart. -/
lemma validateSubparts_error_form (sp : Subparts) (e : String)
    (hcontra : validateSubparts sp = Except.error e) :
    ∃ ctx, e = ctx ++ (": Invalid bounding sphere") := by
  unfold validateSubparts at hcontra
  rcases validate_bind_error_form _ _ _ _ hcontra with hc | hcontra
  · exact ⟨_, hc⟩
  rcases validate_bind_error_form _ _ _ _ hcontra with hc | hcontra
  · exact ⟨_, hc⟩
  rcases validate_bind_error_form _ _ _ _ hcontra with hc | hcontra
  · exact ⟨_, hc⟩
  rcases validate_bind_error_form _ _ _ _ hcontra with hc | hcontra
  · exact ⟨_, hc⟩
  rcases validate_bind_error_form _ _ _ _ hcontra with hc | hcontra
  · exact ⟨_, hc⟩
  rcases validate_bind_error_form _ _ _ _ hcontra with hc | hcontra
  · exact ⟨_, hc⟩
  rcases validate_bind_error_form _ _ _ _ hcontra with hc | hcontra
  · exact ⟨_, hc⟩
  rcases validate_bind_error_form _ _ _ _ hcontra with hc | hcontra
  · exact ⟨_, hc⟩
  rcases validate_bind_error_form _ _ _ _ hcontra with hc | hcontra
  · exact ⟨_, hc⟩
  rcases validate_bind_error_form _ _ _ _ hcontra with hc | hcontra
  · exact ⟨_, hc⟩
  rcases validate_bind_error_form _ _ _ _ hcontra with hc | hcontra
  · exact ⟨_, hc⟩
  rcases validate_bind_error_form _ _ _ _ hcontra with hc | hcontra
  · exact ⟨_, hc⟩
  exact absurd hcontra (by simp [pure, Except.pure])

/-! Per-component tag counts of the reassembly placement. -/

lemma countTag_xEdge_bc1WRN (sp : Subparts) (gr : GridResult) (r h : ℚ) (rows cols : ℕ)
    (hsx : 0 < gr.sizeX) :
    countTag Tag.bc1WRN (xEdgePieces sp gr r h rows cols) = (cols - 1) * 4 := by
  unfold countTag
  simp only [xEdgePieces]
  rw [iterations_eq hsx]
  rw [count_range_flatMap _ _ 0 4 (by simp) (fun j hj => by simp [hj])]
  simp

lemma countTag_xEdge_zero (t : Tag) (sp : Subparts) (gr : GridResult) (r h : ℚ)
    (rows cols : ℕ) (ht : t ≠ Tag.sBE ∧ t ≠ Tag.bc1WRN) :
    countTag t (xEdgePieces sp gr r h rows cols) = 0 := by
  unfold countTag
  simp only [xEdgePieces]
  rw [count_range_flatMap _ _ 0 0 (by simp [ht.1, ht.2, Ne.symm])
    (fun j hj => by simp [hj, ht.1, ht.2, Ne.symm])]
  simp

lemma countTag_yEdge_bc1WLF (sp : Subparts) (gr : GridResult) (r h : ℚ) (rows cols : ℕ)
    (hsy : 0 < gr.sizeY) :
    countTag Tag.bc1WLF (yEdgePieces sp gr r h rows cols) = (rows - 1) * 4 := by
  unfold countTag
  simp only [yEdgePieces]
  rw [iterations_eq hsy]
  rw [count_range_flatMap _ _ 0 4 (by simp) (fun j hj => by simp [hj])]
  simp

lemma countTag_yEdge_zero (t : Tag) (sp : Subparts) (gr : GridResult) (r h : ℚ)
    (rows cols : ℕ) (ht : t ≠ Tag.sBE ∧ t ≠ Tag.bc1WLF) :
    countTag t (yEdgePieces sp gr r h rows cols) = 0 := by
  unfold countTag
  simp only [yEdgePieces]
  rw [count_range_flatMap _ _ 0 0 (by simp [ht.1, ht.2, Ne.symm])
    (fun j hj => by simp [hj, ht.1, ht.2, Ne.symm])]
  simp

lemma countTag_interior_bF (sp : Subparts) (gr : GridResult) (r h : ℚ) (rows cols : ℕ)
    (hsx : 0 < gr.sizeX) (hsy : 0 < gr.sizeY) :
    countTag Tag.bF (interiorPieces sp gr r h rows cols) = cols * rows := by
  unfold countTag
  simp only [interiorPieces]
  rw [iterations_eq hsx, iterations_eq hsy]
  rw [count_range_flatMap _ _ rows 0
    (by rw [count_range_flatMap _ _ 1 0 (by simp) (fun y hy => by simp [hy])]; simp)
    (fun x hx => by
      rw [count_range_flatMap _ _ 1 0 (by simp [hx]) (fun y hy => by simp [hx, hy])]; simp)]
  simp

lemma countTag_interior_bc0W (sp : Subparts) (gr : GridResult) (r h : ℚ) (rows cols : ℕ)
    (hsx : 0 < gr.sizeX) (hsy : 0 < gr.sizeY) :
    countTag Tag.bc0W (interiorPieces sp gr r h rows cols) = (cols - 1) * ((rows - 1) * 4) := by
  unfold countTag
  simp only [interiorPieces]
  rw [iterations_eq hsx, iterations_eq hsy]
  rw [count_range_flatMap _ _ 0 ((rows - 1) * 4)
    (by rw [count_range_flatMap _ _ 0 0 (by simp) (fun y hy => by simp [hy])]; simp)
    (fun x hx => by
      rw [count_range_flatMap _ _ 0 4 (by simp [hx]) (fun y hy => by simp [hx, hy])]; simp)]
  simp

lemma countTag_interior_zero (t : Tag) (sp : Subparts) (gr : GridResult) (r h : ℚ)
    (rows cols : ℕ) (ht : t ≠ Tag.bF ∧ t ≠ Tag.bE0W ∧ t ≠ Tag.bc0W) :
    countTag t (interiorPieces sp gr r h rows cols) = 0 := by
  unfold countTag
  simp only [interiorPieces]
  rw [count_range_flatMap _ _ 0 0
    (by rw [count_range_flatMap _ _ 0 0 (by simp [ht.1, ht.2.1, ht.2.2, Ne.symm])
        (fun y hy => by simp [hy, ht.1, ht.2.1, ht.2.2, Ne.symm])]; simp)
    (fun x hx => by
      rw [count_range_flatMap _ _ 0 0 (by simp [hx, ht.1, ht.2.1, ht.2.2, Ne.symm])
        (fun y hy => by simp [hx, hy, ht.1, ht.2.1, ht.2.2, Ne.symm])]; simp)]
  simp

lemma countTag_corner_bc2W (sp : Subparts) (gr : GridResult) (r h : ℚ) (rows cols : ℕ) :
    countTag Tag.bc2W (cornerPieces sp gr r h rows cols) = 4 := rfl

lemma countTag_corner_tc2W (sp : Subparts) (gr : GridResult) (r h : ℚ) (rows cols : ℕ) :
    countTag Tag.tc2W (cornerPieces sp gr r h rows cols) = 4 := rfl

lemma countTag_corner_sE2W (sp : Subparts) (gr : GridResult) (r h : ℚ) (rows cols : ℕ) :
    countTag Tag.sE2W (cornerPieces sp gr r h rows cols) = 4 := rfl

lemma countTag_corner_bc1WRN (sp : Subparts) (gr : GridResult) (r h : ℚ) (rows cols : ℕ) :
    countTag Tag.bc1WRN (cornerPieces sp gr r h rows cols) = 0 := rfl

lemma countTag_corner_bc1WLF (sp : Subparts) (gr : GridResult) (r h : ℚ) (rows cols : ℕ) :
    countTag Tag.bc1WLF (cornerPieces sp gr r h rows cols) = 0 := rfl

lemma countTag_corner_bc0W (sp : Subparts) (gr : GridResult) (r h : ℚ) (rows cols : ℕ) :
    countTag Tag.bc0W (cornerPieces sp gr r h rows cols) = 0 := rfl

lemma countTag_corner_bF (sp : Subparts) (gr : GridResult) (r h : ℚ) (rows cols : ℕ) :
    countTag Tag.bF (cornerPieces sp gr r h rows cols) = 0 := rfl

lemma countTag_side_bc2W (sp : Subparts) (gr : GridResult) (r h : ℚ) (rows cols : ℕ) :
    countTag Tag.bc2W (sideWallPieces sp gr r h rows cols) = 0 := rfl

lemma countTag_side_tc2W (sp : Subparts) (gr : GridResult) (r h : ℚ) (rows cols : ℕ) :
    countTag Tag.tc2W (sideWallPieces sp gr r h rows cols) = 0 := rfl

lemma countTag_side_sE2W (sp : Subparts) (gr : GridResult) (r h : ℚ) (rows cols : ℕ) :
    countTag Tag.sE2W (sideWallPieces sp gr r h rows cols) = 0 := rfl

lemma countTag_side_bc1WRN (sp : Subparts) (gr : GridResult) (r h : ℚ) (rows cols : ℕ) :
    countTag Tag.bc1WRN (sideWallPieces sp gr r h rows cols) = 0 := rfl

lemma countTag_side_bc1WLF (sp : Subparts) (gr : GridResult) (r h : ℚ) (rows cols : ℕ) :
    countTag Tag.bc1WLF (sideWallPieces sp gr r h rows cols) = 0 := rfl

lemma countTag_side_bc0W (sp : Subparts) (gr : GridResult) (r h : ℚ) (rows cols : ℕ) :
    countTag Tag.bc0W (sideWallPieces sp gr r h rows cols) = 0 := rfl

lemma countTag_side_bF (sp : Subparts) (gr : GridResult) (r h : ℚ) (rows cols : ℕ) :
    countTag Tag.bF (sideWallPieces sp gr r h rows cols) = 0 := rfl

/-! Concrete sample data used to instantiate the general theorems. -/

/-- A small tetrahedron with unit extents on every axis. -/
def sampleMesh : Mesh :=
  { positions := [⟨0, 0, 0⟩, ⟨1, 0, 0⟩, ⟨0, 1, 0⟩, ⟨0, 0, 1⟩],
    index := [0, 1, 2, 0, 1, 3, 0, 2, 3, 1, 2, 3] }

/-- A sample subpart set with the tetrahedron standing in for each region. -/
def sampleSubparts : Subparts :=
  { bottomCorner2W := sampleMesh, topCorner2W := sampleMesh,
    bottomCorner1WRightNear := sampleMesh, bottomCorner1WLeftFar := sampleMesh,
    topCorner1W := sampleMesh, bottomCorner0W := sampleMesh,
    sideTopEdges := sampleMesh, sideBottomEdges := sampleMesh,
    sideEdge2W := sampleMesh, sideWall := sampleMesh,
    bottomFloor := sampleMesh, bottomEdge0W := sampleMesh }

/-- A sample extracted cell of footprint 5 x 5 and height 5. -/
def sampleGrid : GridResult :=
  { geometry := sampleMesh, sizeX := 5, sizeY := 5, sizeZ := 5 }

/-- C1 (amended): for rows, cols at least 1 and positive cell sizes, the
placed-piece list holds exactly 4 outer corner triplets (bottom corner,
top corner, vertical 2-wall edge), 4 * (rows-1 + cols-1) one-wall inner
boundary corner pieces, 4 * (rows-1) * (cols-1) interior zero-wall corner
pieces, and rows * cols floor panels. -/
theorem C1_piece_counts (sp : Subparts) (gr : GridResult) (r h : ℚ) (rows cols : ℕ)
    (hrows : 1 ≤ rows) (hcols : 1 ≤ cols) (hsx : 0 < gr.sizeX) (hsy : 0 < gr.sizeY) :
    countTag Tag.bc2W (reassemblePieces sp gr r h rows cols) = 4 ∧
    countTag Tag.tc2W (reassemblePieces sp gr r h rows cols) = 4 ∧
    countTag Tag.sE2W (reassemblePieces sp gr r h rows cols) = 4 ∧
    countTag Tag.bc1WRN (reassemblePieces sp gr r h rows cols)
      + countTag Tag.bc1WLF (reassemblePieces sp gr r h rows cols)
      = 4 * ((rows - 1) + (cols - 1)) ∧
    countTag Tag.bc0W (reassemblePieces sp gr r h rows cols)
      = 4 * ((rows - 1) * (cols - 1)) ∧
    countTag Tag.bF (reassemblePieces sp gr r h rows cols) = rows * cols := by
  unfold reassemblePieces
  simp only [countTag_append]
  refine ⟨?_, ?_, ?_, ?_, ?_, ?_⟩
  · rw [countTag_corner_bc2W, countTag_xEdge_zero _ _ _ _ _ _ _ (by simp),
      countTag_yEdge_zero _ _ _ _ _ _ _ (by simp),
      countTag_interior_zero _ _ _ _ _ _ _ (by simp), countTag_side_bc2W]
  · rw [countTag_corner_tc2W, countTag_xEdge_zero _ _ _ _ _ _ _ (by simp),
      countTag_yEdge_zero _ _ _ _ _ _ _ (by simp),
      countTag_interior_zero _ _ _ _ _ _ _ (by simp), countTag_side_tc2W]
  · rw [countTag_corner_sE2W, countTag_xEdge_zero _ _ _ _ _ _ _ (by simp),
      countTag_yEdge_zero _ _ _ _ _ _ _ (by simp),
      countTag_interior_zero _ _ _ _ _ _ _ (by simp), countTag_side_sE2W]
  · rw [countTag_corner_bc1WRN, countTag_corner_bc1WLF,
      countTag_xEdge_bc1WRN _ _ _ _ _ _ hsx,
      countTag_xEdge_zero Tag.bc1WLF _ _ _ _ _ _ (by simp),
      countTag_yEdge_bc1WLF _ _ _ _ _ _ hsy,
      countTag_yEdge_zero Tag.bc1WRN _ _ _ _ _ _ (by simp),
      countTag_interior_zero Tag.bc1WRN _ _ _ _ _ _ (by simp),
      countTag_interior_zero Tag.bc1WLF _ _ _ _ _ _ (by simp),
      countTag_side_bc1WRN, countTag_side_bc1WLF]
    ring
  · rw [countTag_corner_bc0W, countTag_xEdge_zero _ _ _ _ _ _ _ (by simp),
      countTag_yEdge_zero _ _ _ _ _ _ _ (by simp),
      countTag_interior_bc0W _ _ _ _ _ _ hsx hsy, countTag_side_bc0W]
    ring
  · rw [countTag_corner_bF, countTag_xEdge_zero _ _ _ _ _ _ _ (by simp),
      countTag_yEdge_zero _ _ _ _ _ _ _ (by simp),
      countTag_interior_bF _ _ _ _ _ _ hsx hsy, countTag_side_bF]
    ring

/-- C1 counterexample to the claim as stated: at rows = cols = 2 the code
places 8 one-wall inner boundary corner pieces, not 2 * (1 + 1) = 4. -/
theorem C1_counterexample :
    ¬ (countTag Tag.bc1WRN (reassemblePieces sampleSubparts sampleGrid 1 10 2 2)
       + countTag Tag.bc1WLF (reassemblePieces sampleSubparts sampleGrid 1 10 2 2)
       = 2 * ((2 - 1) + (2 - 1))) := by decide

/-- C1 witness: the amended counts instantiated at rows = 3, cols = 2. -/
theorem C1_witness :
    countTag Tag.bc2W (reassemblePieces sampleSubparts sampleGrid 1 10 3 2) = 4 ∧
    countTag Tag.tc2W (reassemblePieces sampleSubparts sampleGrid 1 10 3 2) = 4 ∧
    countTag Tag.sE2W (reassemblePieces sampleSubparts sampleGrid 1 10 3 2) = 4 ∧
    countTag Tag.bc1WRN (reassemblePieces sampleSubparts sampleGrid 1 10 3 2)
      + countTag Tag.bc1WLF (reassemblePieces sampleSubparts sampleGrid 1 10 3 2)
      = 4 * ((3 - 1) + (2 - 1)) ∧
    countTag Tag.bc0W (reassemblePieces sampleSubparts sampleGrid 1 10 3 2)
      = 4 * ((3 - 1) * (2 - 1)) ∧
    countTag Tag.bF (reassemblePieces sampleSubparts sampleGrid 1 10 3 2) = 3 * 2 :=
  C1_piece_counts sampleSubparts sampleGrid 1 10 3 2 (by norm_num) (by norm_num)
    (by norm_num [sampleGrid]) (by norm_num [sampleGrid])

/-- C3 (amended): both Y-axis side walls carry the overlap-thickness bump:
the left wall is scaled in Z to height - 2r + OVERLAP_THICKNESS and the
right wall, being a rotated clone of the already scaled left wall, has the
same Z extent. -/
theorem C3_both_walls_bumped (sp : Subparts) (gr : GridResult) (r h : ℚ) (rows cols : ℕ)
    (hz : 0 < zExtent sp.sideWall) (hr : 2 * r ≤ h) :
    zExtent (leftSideWall sp gr r h rows cols) = h - 2 * r + OVERLAP_THICKNESS ∧
    zExtent (rightSideWall sp gr r h rows cols) = h - 2 * r + OVERLAP_THICKNESS := by
  have hne : sp.sideWall.positions ≠ [] := pos_ne_of_zExtent hz
  have hw0ne : (rotateZWithTrim 3 sp.sideWall).positions ≠ [] := rotateZWithTrim_pos_ne 3 hne
  have hmaxw0 : maxZ (rotateZWithTrim 3 sp.sideWall) = zExtent sp.sideWall :=
    maxZ_rotateZWithTrim 3 hne
  have hZpos : 0 < maxZ (rotateZWithTrim 3 sp.sideWall) := by rw [hmaxw0]; exact hz
  have hminw0 : minZ (rotateZWithTrim 3 sp.sideWall) = 0 := minZ_trim (rotate_pos_ne 3 hne)
  have hov : (0:ℚ) < OVERLAP_THICKNESS := by norm_num [OVERLAP_THICKNESS]
  have hfz : 0 ≤ (h - 2 * r + OVERLAP_THICKNESS) / maxZ (rotateZWithTrim 3 sp.sideWall) :=
    div_nonneg (by linarith) hZpos.le
  have hleft : zExtent (leftSideWall sp gr r h rows cols) = h - 2 * r + OVERLAP_THICKNESS := by
    simp only [leftSideWall]
    rw [zExtent_translate _ _ _ (trim_pos_ne (scale_pos_ne _ _ _ hw0ne)),
      zExtent_trim (scale_pos_ne _ _ _ hw0ne),
      zExtent_scale _ _ _ hfz, zExtent, hminw0, sub_zero,
      div_mul_cancel₀ _ (ne_of_gt hZpos)]
  have hleftne : (leftSideWall sp gr r h rows cols).positions ≠ [] := by
    simp only [leftSideWall]
    exact translate_pos_ne _ _ _ (trim_pos_ne (scale_pos_ne _ _ _ hw0ne))
  refine ⟨hleft, ?_⟩
  simp only [rightSideWall]
  rw [zExtent_translate _ _ _ (rotateZWithTrim_pos_ne 2 hleftne),
    zExtent_rotateZWithTrim 2 hleftne, hleft]

/-- C3 counterexample to the claim as stated: at the sample input neither
wall lacks the bump, so it is false that exactly one of the two Y-axis
walls is bumped while its twin is scaled to height - 2r. -/
theorem C3_counterexample :
    ¬ ((zExtent (leftSideWall sampleSubparts sampleGrid 1 10 2 2)
          = 10 - 2 * 1 + OVERLAP_THICKNESS ∧
        zExtent (rightSideWall sampleSubparts sampleGrid 1 10 2 2) = 10 - 2 * 1) ∨
       (zExtent (rightSideWall sampleSubparts sampleGrid 1 10 2 2)
          = 10 - 2 * 1 + OVERLAP_THICKNESS ∧
        zExtent (leftSideWall sampleSubparts sampleGrid 1 10 2 2) = 10 - 2 * 1)) := by
  decide

/-- C3 witness: the amended statement instantiated at the sample input. -/
theorem C3_witness :
    zExtent (leftSideWall sampleSubparts sampleGrid 1 10 2 2)
      = 10 - 2 * 1 + OVERLAP_THICKNESS ∧
    zExtent (rightSideWall sampleSubparts sampleGrid 1 10 2 2)
      = 10 - 2 * 1 + OVERLAP_THICKNESS :=
  C3_both_walls_bumped sampleSubparts sampleGrid 1 10 2 2 (by decide) (by norm_num)

/-- The identity boolean engine, used to witness theorems that hold for
every engine. -/
def csgId : Mesh → Box → Mesh := fun msh _ => msh

lemma validate_ok_ne {ctx : String} {m : Mesh} {u : Unit}
    (hval : validateGeometry ctx m = Except.ok u) : m.positions ≠ [] := by
  unfold validateGeometry at hval
  by_cases hm : m.positions.isEmpty
  · rw [if_pos hm] at hval
    exact absurd hval (by simp)
  · simpa using hm

/-- The size triple of a successful cell extraction, computed from the
bounding-box extents of the input. -/
lemma cutToGrid_sizes (csg : Mesh → Box → Mesh) (baseGeom : Mesh) (n m : ℚ)
    (g : GridResult) (hn : 2 ≤ n) (hm : 2 ≤ m)
    (hok : cutToGrid csg baseGeom n m = Except.ok g) :
    g.sizeX = xExtent baseGeom / n ∧ g.sizeY = yExtent baseGeom / m ∧
    g.sizeZ = zExtent baseGeom := by
  simp only [cutToGrid] at hok
  rw [if_neg (by rw [not_or, not_lt, not_lt]; exact ⟨hn, hm⟩)] at hok
  cases hval : validateGeometry ("cutToGrid input") (trimToOrigin baseGeom) with
  | error e =>
    simp only [hval] at hok
    exact absurd hok (by simp)
  | ok u =>
    simp only [hval] at hok
    have hne : baseGeom.positions ≠ [] := by
      have := validate_ok_ne hval
      simpa [trimToOrigin, meshTranslate] using this
    simp only [Except.ok.injEq] at hok
    subst hok
    refine ⟨?_, ?_, ?_⟩
    · show (maxX (trimToOrigin baseGeom) - minX (trimToOrigin baseGeom)) / n = _
      rw [maxX_trim hne, minX_trim hne, sub_zero, xExtent]
    · show (maxY (trimToOrigin baseGeom) - minY (trimToOrigin baseGeom)) / m = _
      rw [maxY_trim hne, minY_trim hne, sub_zero, yExtent]
    · show maxZ (trimToOrigin baseGeom) - minZ (trimToOrigin baseGeom) = _
      rw [maxZ_trim hne, minZ_trim hne, sub_zero, zExtent]

/-- C5: for every boolean engine, every input mesh and every grid pair with
a component below 2, cutToGrid returns the invalid-grid-size error; the
result does not depend on the mesh or on the engine, so no geometric
operation has been applied to the input when the error is raised. -/
theorem C5_reject_small_grids (csg : Mesh → Box → Mesh) (baseGeom : Mesh)
    (n m : ℚ) (hnm : n < 2 ∨ m < 2) :
    cutToGrid csg baseGeom n m = Except.error ("Grid size must be at least 2x2") := by
  unfold cutToGrid
  rw [if_pos hnm]

/-- C5 witness: grids (1, 3) are rejected. -/
theorem C5_witness :
    cutToGrid csgId sampleMesh 1 3 = Except.error ("Grid size must be at least 2x2") :=
  C5_reject_small_grids csgId sampleMesh 1 3 (by norm_num)

/-- C6: whenever cell extraction succeeds on a non-empty solid with
n, m at least 2, the returned size triple is exactly
(sizeX / n, sizeY / m, sizeZ) of the bounding box of the input. -/
theorem C6_cell_sizes (csg : Mesh → Box → Mesh) (baseGeom : Mesh) (n m : ℚ)
    (g : GridResult) (hn : 2 ≤ n) (hm : 2 ≤ m) (hne : baseGeom.positions ≠ [])
    (hok : cutToGrid csg baseGeom n m = Except.ok g) :
    g.sizeX = xExtent baseGeom / n ∧ g.sizeY = yExtent baseGeom / m ∧
    g.sizeZ = zExtent baseGeom :=
  cutToGrid_sizes csg baseGeom n m g hn hm hok

/-- The extraction result at the sample input. -/
def w6g : GridResult := { geometry := sampleMesh, sizeX := 1 / 2, sizeY := 1 / 2, sizeZ := 1 }

/-- C6 witness: extraction of the sample tetrahedron into a 2 x 2 grid. -/
theorem C6_witness :
    w6g.sizeX = xExtent sampleMesh / 2 ∧ w6g.sizeY = yExtent sampleMesh / 2 ∧
    w6g.sizeZ = zExtent sampleMesh :=
  C6_cell_sizes csgId sampleMesh 2 2 w6g (by norm_num) (by norm_num)
    (by simp [sampleMesh]) (by rfl)

/-- C7: when outputGridSize is present and the pipeline succeeds, the
returned cell has sizeX equal to outputGridSize, its other sizes and its
geometry extents are multiplied by the uniform factor s = outputGridSize
divided by the extracted sizeX, and the corner radius becomes
inputCornerRadius times s. -/
theorem C7_output_grid_scaling (csg : Mesh → Box → Mesh) (baseGeom : Mesh)
    (n m r s0 : ℚ) (gr : GridResult) (cr : ℚ)
    (hn : 2 ≤ n) (hm : 2 ≤ m) (hx : 0 < xExtent baseGeom) (hs0 : 0 ≤ s0)
    (hok : gridifierPrepare csg baseGeom n m r (some s0) = Except.ok (gr, cr)) :
    gr.sizeX = s0 ∧
    cr = r * (s0 / (xExtent baseGeom / n)) ∧
    ∃ og, cutToGrid csg baseGeom n m = Except.ok og ∧
      gr.sizeY = og.sizeY * (s0 / og.sizeX) ∧
      gr.sizeZ = og.sizeZ * (s0 / og.sizeX) ∧
      xExtent gr.geometry = (s0 / og.sizeX) * xExtent og.geometry ∧
      yExtent gr.geometry = (s0 / og.sizeX) * yExtent og.geometry ∧
      zExtent gr.geometry = (s0 / og.sizeX) * zExtent og.geometry := by
  simp only [gridifierPrepare] at hok
  cases hcut : cutToGrid csg baseGeom n m with
  | error e =>
    simp only [hcut] at hok
    exact absurd hok (by simp)
  | ok og =>
    simp only [hcut] at hok
    obtain ⟨hogx, hogy, hogz⟩ := cutToGrid_sizes csg baseGeom n m og hn hm hcut
    cases hval : validateGeometry ("cutToGrid output") og.geometry with
    | error e =>
      simp only [hval] at hok
      exact absurd hok (by simp)
    | ok u =>
      simp only [hval] at hok
      have hogne : og.geometry.positions ≠ [] := validate_ok_ne hval
      have hnpos : (0:ℚ) < n := lt_of_lt_of_le two_pos hn
      have hsXpos : 0 < og.sizeX := by rw [hogx]; exact div_pos hx hnpos
      have hscnn : 0 ≤ s0 / og.sizeX := div_nonneg hs0 hsXpos.le
      have hsne : (meshScale (s0 / og.sizeX) (s0 / og.sizeX) (s0 / og.sizeX)
          og.geometry).positions ≠ [] := scale_pos_ne _ _ _ hogne
      cases hval2 : validateGeometry ("cutToGrid scaled output")
          (trimToOrigin (meshScale (s0 / og.sizeX) (s0 / og.sizeX) (s0 / og.sizeX)
            og.geometry)) with
      | error e =>
        simp only [hval2] at hok
        exact absurd hok (by simp)
      | ok u2 =>
        simp only [hval2, Except.ok.injEq, Prod.mk.injEq] at hok
        obtain ⟨hgr, hcr⟩ := hok
        subst hgr
        refine ⟨?_, ?_, og, rfl, ?_, ?_, ?_, ?_, ?_⟩
        · show og.sizeX * (s0 / og.sizeX) = s0
          field_simp
        · rw [← hcr, hogx]
        · rfl
        · rfl
        · show xExtent (trimToOrigin (meshScale _ _ _ og.geometry)) = _
          rw [xExtent_trim hsne, xExtent_scale _ _ _ hscnn]
        · show yExtent (trimToOrigin (meshScale _ _ _ og.geometry)) = _
          rw [yExtent_trim hsne, yExtent_scale _ _ _ hscnn]
        · show zExtent (trimToOrigin (meshScale _ _ _ og.geometry)) = _
          rw [zExtent_trim hsne, zExtent_scale _ _ _ hscnn]

/-- The rescaled cell geometry of the C7 witness run: the sample
tetrahedron scaled by 6. -/
def w7geom : Mesh :=
  { positions := [⟨0, 0, 0⟩, ⟨6, 0, 0⟩, ⟨0, 6, 0⟩, ⟨0, 0, 6⟩],
    index := [0, 1, 2, 0, 1, 3, 0, 2, 3, 1, 2, 3] }

/-- The rescaled cell of the C7 witness run. -/
def w7gr : GridResult := { geometry := w7geom, sizeX := 3, sizeY := 3, sizeZ := 6 }

/-- C7 witness: the pipeline at the sample input with outputGridSize 3
returns a cell of sizeX 3 and corner radius 1 * (3 / (1/2)) = 6. -/
theorem C7_witness :
    w7gr.sizeX = 3 ∧ (6:ℚ) = 1 * (3 / (xExtent sampleMesh / 2)) :=
  ⟨(C7_output_grid_scaling csgId sampleMesh 2 2 1 3 w7gr 6 (by norm_num) (by norm_num)
      (by decide) (by norm_num) (by rfl)).1,
   (C7_output_grid_scaling csgId sampleMesh 2 2 1 3 w7gr 6 (by norm_num) (by norm_num)
      (by decide) (by norm_num) (by rfl)).2.1⟩

/-- C8: dividerThickness is never read by reassemble, so two runs differing
only in it return identical output geometry. -/
theorem C8_divider_no_effect (union2 : Mesh → Mesh → Mesh) (sp : Subparts)
    (gr : GridResult) (r h : ℚ) (rows cols : ℕ) (d1 d2 : Option ℚ) (u : Bool) :
    reassemble union2 sp gr r h rows cols d1 u
      = reassemble union2 sp gr r h rows cols d2 u := rfl

/-- C9: the repair step leaves the triangle count of its argument unchanged
(it returns the original geometry binding), so permuting the triangle list
of an indexed mesh before repair yields the same post-repair triangle
count. -/
theorem C9_perm_invariant (m : Mesh) (tris2 : List (ℕ × ℕ × ℕ))
    (hperm : tris2.Perm (triples m.index)) :
    triCount (fixNonManifoldGeometry { positions := m.positions, index := flattenTris tris2 })
      = triCount (fixNonManifoldGeometry m) := by
  calc triCount (fixNonManifoldGeometry { positions := m.positions, index := flattenTris tris2 })
      = (triples (flattenTris tris2)).length := rfl
    _ = tris2.length := by rw [triples_flattenTris]
    _ = (triples m.index).length := hperm.length_eq
    _ = triCount (fixNonManifoldGeometry m) := rfl

/-- C9 witness: swapping the two triangles of the sample two-triangle mesh
leaves the post-repair triangle count unchanged. -/
theorem C9_witness :
    triCount (fixNonManifoldGeometry
      { positions := [⟨0, 0, 0⟩, ⟨1, 0, 0⟩, ⟨0, 1, 0⟩],
        index := flattenTris [(0, 2, 1), (0, 1, 2)] })
      = triCount (fixNonManifoldGeometry
          { positions := [⟨0, 0, 0⟩, ⟨1, 0, 0⟩, ⟨0, 1, 0⟩], index := [0, 1, 2, 0, 2, 1] }) :=
  C9_perm_invariant
    { positions := [⟨0, 0, 0⟩, ⟨1, 0, 0⟩, ⟨0, 1, 0⟩], index := [0, 1, 2, 0, 2, 1] }
    [(0, 2, 1), (0, 1, 2)] (by decide)

/-- A mesh holding the same triangle twice, above the minimum area. -/
def dupFaceMesh : Mesh :=
  { positions := [⟨0, 0, 0⟩, ⟨1, 0, 0⟩, ⟨0, 1, 0⟩], index := [0, 1, 2, 0, 1, 2] }

/-- C2: the repair step returns its input unrepaired - the source computes
the weld/dedup/cull fixpoint in a loop but ends with a return of the
original geometry binding, so a duplicate face survives repair even though
the discarded loop output is duplicate-free. -/
theorem C2_repair_discards_output :
    fixNonManifoldGeometry dupFaceMesh = dupFaceMesh ∧
    ¬ (faceKeys (fixNonManifoldGeometry dupFaceMesh)).Nodup ∧
    faceKeys (fixLoop (dupFaceMesh.positions.length + 1) dupFaceMesh) = [[0, 1, 2]] :=
  ⟨rfl, by decide, by rfl⟩

/-- C4: the grid-size parser does not reject the non-numeric string axb:
Number coerces both halves to NaN and the NaN < 1 comparison is false, so
the parser returns (NaN, NaN) instead of raising an error. -/
theorem C4_parser_accepts_nan :
    parseGridSize ("axb") = Except.ok (JSVal.nan, JSVal.nan) := by rfl

lemma except_bind_error {ε α β : Type} (e : ε) (f : α → Except ε β) :
    (Except.error e >>= f) = Except.error e := rfl

lemma except_bind_ok {ε α β : Type} (a : α) (f : α → Except ε β) :
    (Except.ok a >>= f) = f a := rfl

/-- C10: for every rows and cols, including 0, the corner loop contributes
12 pieces and the side walls 8 more, so the placed-piece list has at least
20 entries and reassemble can never return the empty-assembly error. -/
theorem C10_no_empty_assembly (union2 : Mesh → Mesh → Mesh) (sp : Subparts)
    (gr : GridResult) (r h : ℚ) (rows cols : ℕ) (d : Option ℚ) (u : Bool) :
    20 ≤ (reassemblePieces sp gr r h rows cols).length ∧
    reassemble union2 sp gr r h rows cols d u
      ≠ Except.error ("No geometries to merge") := by
  have hc : (cornerPieces sp gr r h rows cols).length = 12 := rfl
  have hs : (sideWallPieces sp gr r h rows cols).length = 8 := rfl
  have hlen : 20 ≤ (reassemblePieces sp gr r h rows cols).length := by
    unfold reassemblePieces
    simp only [List.length_append]
    omega
  refine ⟨hlen, ?_⟩
  intro hcontra
  simp only [reassemble] at hcontra
  cases hv : validateSubparts sp with
  | error e =>
    simp only [hv, except_bind_error, Except.error.injEq] at hcontra
    obtain ⟨ctx, hctx⟩ := validateSubparts_error_form sp e hv
    rw [hcontra] at hctx
    exact append_sphere_ne_merge ctx hctx.symm
  | ok uv =>
    cases uv
    simp only [hv, except_bind_ok] at hcontra
    have hL : ((reassemblePieces sp gr r h rows cols).map (fun pc => pc.2)).length ≠ 0 := by
      rw [List.length_map]
      omega
    rw [if_neg hL] at hcontra
    cases u with
    | false =>
      simp only [Bool.false_eq_true, if_false, except_bind_ok] at hcontra
      rcases validate_bind_error_form _ _ _ _ hcontra with hform | hko
      · exact append_sphere_ne_merge _ hform.symm
      · exact absurd hko (by simp)
    | true =>
      simp only [if_true] at hcontra
      have hne2 : (reassemblePieces sp gr r h rows cols).map (fun pc => pc.2) ≠ [] := by
        intro h0
        exact hL (by rw [h0]; rfl)
      obtain ⟨p, ps, hcons⟩ := List.exists_cons_of_ne_nil hne2
      rw [hcons] at hcontra
      simp only [unionAllGeometry, except_bind_ok] at hcontra
      rcases validate_bind_error_form _ _ _ _ hcontra with hform | hko
      · exact append_sphere_ne_merge _ hform.symm
      · exact absurd hko (by simp)

end Gridifier
